import Mathlib

set_option maxRecDepth 10000

/-!
Verification of the LumenLink rendezvous backend (Go) against its specification.

The Go sources are shallowly embedded: pure functions become Lean functions,
Go `int` (64-bit on the deployment targets) becomes `Int` with explicit
two's-complement wrapping where overflow can occur, `float64` load fractions
become exact rationals (`Rat`; every value the verified claims distinguish —
`0.5` and quotients of small integers — is exactly representable, and only
order comparisons and equalities of such values are used), fallible or
panicking library calls become `Option`/`Except` results, and external
collaborators (the SQL store, the platform attestation backends, the process
environment, the clock) become explicit parameters.
-/

namespace LumenLink

/-! ## Go 64-bit integer semantics -/

/-- Two's-complement wrap of a mathematical integer into the range of Go's
64-bit `int`, `[-2^63, 2^63)`. -/
def wrap64 (n : Int) : Int := (n + 2 ^ 63) % 2 ^ 64 - 2 ^ 63

/-- Go's `%` on `int`: truncated remainder (the result has the sign of the
dividend), which is `Int.tmod`. -/
def goMod (a b : Int) : Int := Int.tmod a b

/-- Go's unary negation on `int`, which wraps on the minimum value
(`-minInt64 == minInt64`). -/
def goNeg (a : Int) : Int := wrap64 (-a)

/-! ## Package `geo` (balancer.go, `src/unnamed/part_006`): rollout gate -/

/-- Accumulation loop of `hashString`: `for _, char := range s { hash = hash*31 + int(char) }`,
iterating over the runes of `s` with wrapping 64-bit arithmetic. Lean's `String.data`
is exactly the rune sequence, and `Char.toNat` the rune's code point (`int(char)`). -/
def hashFold (s : String) : Int :=
  s.data.foldl (fun hash char => wrap64 (hash * 31 + char.toNat)) 0

/-- Function `hashString` of the geo balancer: the accumulated hash, negated when
negative (Go negation wraps on `minInt64`), reduced by Go's `%` 100. -/
def hashString (s : String) : Int :=
  let hash := hashFold s
  let hash := if hash < 0 then goNeg hash else hash
  goMod hash 100

/-- Process environment as seen through `os.Getenv`, which returns `""` for an
unset variable. -/
abbrev Env := List (String × String)

def envGet (env : Env) (key : String) : String :=
  match env.find? (fun p => p.1 == key) with
  | some p => p.2
  | none => ""

/-- Function `normalizeRolloutKey`: uppercase the value, map every rune that is not a
letter or digit to `_`, and trim leading/trailing `_`. Go's `strings.ToUpper` /
`unicode.IsLetter` / `unicode.IsDigit` are modeled by their ASCII restrictions
(`Char.toUpper`, `Char.isAlpha`, `Char.isDigit`), which agree with Go on the ASCII
version and region strings the rollout keys are built from. -/
def normalizeRolloutKey (value : String) : String :=
  if value = "" then ""
  else
    let upper := value.data.map Char.toUpper
    let normalized := upper.map fun r => if r.isAlpha || r.isDigit then r else '_'
    String.mk ((normalized.dropWhile (· == '_')).reverse.dropWhile (· == '_') |>.reverse)

/-- Function `rolloutEnvKeys`: the precedence-ordered list of environment keys for a
config version and region — version+region, version-only, region-only, global. -/
def rolloutEnvKeys (configVersion region : String) : List String :=
  let normalizedVersion := normalizeRolloutKey configVersion
  let normalizedRegion := normalizeRolloutKey region
  (if normalizedVersion ≠ "" ∧ normalizedRegion ≠ "" then
    ["LUMENLINK_ROLLOUT_PERCENTAGE_" ++ normalizedVersion ++ "_" ++ normalizedRegion]
  else []) ++
  (if normalizedVersion ≠ "" then
    ["LUMENLINK_ROLLOUT_PERCENTAGE_" ++ normalizedVersion]
  else []) ++
  (if normalizedRegion ≠ "" then
    ["LUMENLINK_ROLLOUT_PERCENTAGE_" ++ normalizedRegion]
  else []) ++
  ["LUMENLINK_ROLLOUT_PERCENTAGE"]

/-- Function `clampPercentage`: clamp an integer percentage into `[0, 100]`. -/
def clampPercentage (percent : Int) : Int :=
  if percent < 0 then 0
  else if percent > 100 then 100
  else percent

/-- Whitespace set of Go's `unicode.IsSpace` restricted to Latin-1, the
characters `strings.TrimSpace` trims. -/
def goIsSpace (c : Char) : Bool :=
  c == ' ' || c == '\t' || c == '\n' || c == '\u000B' || c == '\u000C' || c == '\r' ||
  c == '\u0085' || c == '\u00A0'

/-- Go `strings.TrimSpace`. -/
def trimSpace (s : String) : String :=
  String.mk ((s.data.dropWhile goIsSpace).reverse.dropWhile goIsSpace |>.reverse)

def digitsVal (l : List Char) : Nat :=
  l.foldl (fun acc c => acc * 10 + (c.toNat - 48)) 0

/-- Go `strconv.Atoi`: optional sign, then at least one decimal digit and nothing
else; `none` for everything Go reports with a non-nil error, including values
outside the range of a 64-bit `int` (`strconv.ErrRange`). -/
def atoi (s : String) : Option Int :=
  let core : List Char → Option Int := fun digits =>
    if digits = [] then none
    else if digits.all Char.isDigit then some ((digitsVal digits : Nat) : Int)
    else none
  let signed : Option Int :=
    match s.data with
    | '-' :: rest => (core rest).map (fun n => -n)
    | '+' :: rest => core rest
    | l => core l
  match signed with
  | some v => if v < -(2 ^ 63) ∨ 2 ^ 63 - 1 < v then none else some v
  | none => none

/-- Body of the lookup loop of `GetRolloutPercentage` for one key: trim the
environment value and parse it; `none` (continue to the next key) when the value
is empty or unparsable. -/
def envResolve (env : Env) (key : String) : Option Int :=
  let value := trimSpace (envGet env key)
  if value ≠ "" then atoi value else none

/-- Method `GetRolloutPercentage`: walk `rolloutEnvKeys` in order and return the
clamped first parsable value, or 100 when no key resolves. The Go `error` return
is always nil and the unused `ctx` is dropped. -/
def getRolloutPercentage (env : Env) (configVersion region : String) : Int :=
  match (rolloutEnvKeys configVersion region).findSome?
      (fun key => (envResolve env key).map clampPercentage) with
  | some percent => percent
  | none => 100

/-- Method `ShouldIncludeInRollout`: hash-based rollout decision,
`hashString(clientID + configVersion + region) % 100 < percentage`. The error
path of `GetRolloutPercentage` is unreachable (the error is always nil). -/
def shouldIncludeInRollout (env : Env) (clientID configVersion region : String) : Bool :=
  let percentage := getRolloutPercentage env configVersion region
  let hash := hashString (clientID ++ configVersion ++ region)
  decide (goMod hash 100 < percentage)

/-- First entry of `rolloutEnvKeys`: the version+region specific override key. -/
def keyVR (version region : String) : String :=
  "LUMENLINK_ROLLOUT_PERCENTAGE_" ++ normalizeRolloutKey version ++ "_" ++
    normalizeRolloutKey region

/-- Second entry of `rolloutEnvKeys`: the version-only override key. -/
def keyV (version : String) : String :=
  "LUMENLINK_ROLLOUT_PERCENTAGE_" ++ normalizeRolloutKey version

/-- Third entry of `rolloutEnvKeys`: the region-only override key. -/
def keyR (region : String) : String :=
  "LUMENLINK_ROLLOUT_PERCENTAGE_" ++ normalizeRolloutKey region

/-- Last entry of `rolloutEnvKeys`: the global override key. -/
def keyGlobal : String := "LUMENLINK_ROLLOUT_PERCENTAGE"

/-! ## Package `db` (models.go): the gateway record -/

/-- Structure `db.Gateway` (models.go), restricted to the fields the verified code
reads or writes; the audit timestamps (`CreatedAt`, `LastSeen`, `UpdatedAt`) and
`BandwidthMbps`, `DiscoveryChannels` are never consulted by the claims' code and
are omitted. `Load` is a float64 in Go, modeled as an exact rational. -/
structure Gateway where
  id : String
  publicKey : List Nat
  ipAddress : String
  port : Int
  transportTypes : List String
  region : String
  currentUsers : Int
  maxUsers : Option Int
  status : String
  isHoneypot : Bool
  load : Rat
deriving DecidableEq, Inhabited

/-! ## Package `geo` (balancer.go): loads and the load-based selection sort -/

/-- Function `calculateGatewayLoad` (geo): 0.5 when `MaxUsers` is nil or zero, else
`float64(CurrentUsers) / float64(*MaxUsers)`, modeled as exact rational division. -/
def calculateGatewayLoad (gw : Gateway) : Rat :=
  match gw.maxUsers with
  | none => 1 / 2
  | some m => if m = 0 then 1 / 2 else (gw.currentUsers : Rat) / (m : Rat)

/-- Assignment `sorted[k].Load = calculateGatewayLoad(sorted[k])` performed inside the
sorting loop of `GetLoadBalancedGateways`. -/
def setLoad (gw : Gateway) : Gateway := { gw with load := calculateGatewayLoad gw }

/-- Go's parallel assignment `sorted[i], sorted[j] = sorted[j], sorted[i]`. -/
def lswap (l : List Gateway) (i j : Nat) : List Gateway :=
  (l.set i (l.getD j default)).set j (l.getD i default)

/-- One iteration of the inner sorting loop of `GetLoadBalancedGateways` for indices
`(i, j)`: store the recomputed loads of both entries, then swap when out of order
(`sorted[i].Load > sorted[j].Load`). -/
def sortStep (l : List Gateway) (i j : Nat) : List Gateway :=
  let l1 := l.set i (setLoad (l.getD i default))
  let l2 := l1.set j (setLoad (l1.getD j default))
  if (l2.getD i default).load > (l2.getD j default).load then lswap l2 i j else l2

/-- Inner loop `for j := i + 1; j < len(sorted); j++` of `GetLoadBalancedGateways`. -/
def innerLoop (l : List Gateway) (i j : Nat) : List Gateway :=
  if _h : j < l.length then innerLoop (sortStep l i j) i (j + 1) else l
termination_by l.length - j
decreasing_by
  simp_wf
  have hl : (sortStep l i j).length = l.length := by
    simp only [sortStep, lswap]; split <;> simp
  rw [hl]; omega

/-- Outer loop `for i := 0; i < len(sorted)-1; i++` of `GetLoadBalancedGateways`. -/
def outerLoop (l : List Gateway) (i : Nat) : List Gateway :=
  if _h : i < l.length - 1 then outerLoop (innerLoop l i (i + 1)) (i + 1) else l
termination_by l.length - 1 - i
decreasing_by
  simp_wf
  have hs : ∀ (l : List Gateway) (i j : Nat), (sortStep l i j).length = l.length := by
    intro l i j
    simp only [sortStep, lswap]; split <;> simp
  have hl : ∀ (l : List Gateway) (i j : Nat), (innerLoop l i j).length = l.length := by
    intro l i j
    generalize hk : l.length - j = k
    induction k generalizing l j with
    | zero => rw [innerLoop, dif_neg (by omega)]
    | succ k ih =>
      rw [innerLoop]
      by_cases h : j < l.length
      · rw [dif_pos h, ih (sortStep l i j) (j + 1) (by rw [hs]; omega), hs]
      · rw [dif_neg h]
  rw [hl]; omega

/-- Method `GetLoadBalancedGateways` (geo): fetch the region's gateways (abstracted as
the input list), early-return on empty, run the in-place double-loop load sort, cap
`count` at the list length, and return the prefix. `count` is a Go `int`; it is taken
as a natural here (the Go code would panic slicing with a negative count, and every
caller passes a positive literal). -/
def getLoadBalancedGateways (gateways : List Gateway) (count : Nat) : List Gateway :=
  if gateways.length = 0 then []
  else
    let sorted := outerLoop gateways 0
    let count := if count > sorted.length then sorted.length else count
    sorted.take count

/-- Structural restatement of one inner pass of the sort, used only to reason about
`innerLoop`: thread the element at position `i` ("cur") left to right through the
not-yet-visited suffix, storing recomputed loads exactly where the index loop does. -/
def selPassG (cur : Gateway) : List Gateway → Gateway × List Gateway
  | [] => (cur, [])
  | x :: xs =>
    if (setLoad cur).load > (setLoad x).load then
      let r := selPassG (setLoad x) xs
      (r.1, setLoad cur :: r.2)
    else
      let r := selPassG (setLoad cur) xs
      (r.1, setLoad x :: r.2)

/-- Fuel-indexed structural restatement of the outer loop (the fuel is the list
length, which `selPassG` preserves); used only to reason about `outerLoop`. -/
def selectionSortAux : Nat → List Gateway → List Gateway
  | 0, _ => []
  | _, [] => []
  | n + 1, c :: rest =>
    let r := selPassG c rest
    r.1 :: selectionSortAux n r.2

def selectionSortG (l : List Gateway) : List Gateway := selectionSortAux l.length l

/-! ## Package `config` (pack.go): signed config packs -/

/-- Structure `config.GatewayInfo` (pack.go): the gateway projection placed in a pack.
`Load` is a float64 in Go, modeled as an exact rational. -/
structure GatewayInfo where
  id : String
  address : String
  port : Int
  transports : List String
  region : String
  load : Rat
  isHoneypot : Bool
  publicKey : List Nat
deriving DecidableEq, Inhabited

/-- Structure `config.TransportConfig` (pack.go). The Go `Options` field is a
`map[string]string`, modeled as an association list; JSON marshaling orders map
keys, which `canonTransport` below accounts for. -/
structure TransportConfig where
  type : String
  endpoints : List String
  fingerprint : String
  options : List (String × String)
deriving DecidableEq

/-- Structure `config.DiscoveryConfig` (pack.go). -/
structure DiscoveryConfig where
  channels : List String
  scanInterval : Int
  batteryAware : Bool
deriving DecidableEq

/-- Ed25519 key and signature material: byte strings, one `Nat` per byte. The
symbolic signature scheme below stores an unbounded value in the first position;
this realizes the ideal (collision-free) functionality that a fixed-width
cryptographic signature approximates. -/
abbrev Bytes := List Nat

/-- Structure `config.SignedConfigPack` (pack.go). `Metadata` is a
`map[string]interface{}` whose values are the `client_id`/`region` strings the
builder stores; it is modeled as a string-valued association list. -/
structure SignedConfigPack where
  version : String
  timestamp : Int
  gateways : List GatewayInfo
  transports : List TransportConfig
  discovery : DiscoveryConfig
  metadata : List (String × String)
  signature : Bytes
  publicKey : Bytes
deriving DecidableEq

/-- Structure `config.AttestationResult` as the config package consumes it (the API
handler copies exactly these two fields across the package boundary). -/
structure ConfigAttestationResult where
  isValid : Bool
  deviceIntegrity : String
deriving DecidableEq

/-- Structure `config.ConfigService`: the signing key pair resolved once at
construction by `loadSigningKeys`. The private key is a symbolic scalar; the public
key is carried as bytes (`pubKeyBytes privateKey` when the pair is consistent). -/
structure ConfigService where
  privateKey : Nat
  publicKey : Bytes

/-- Lexicographic order on rune sequences: for valid UTF-8 this is exactly Go's
byte-wise `<` on strings, the order `encoding/json` sorts map keys by. (A structural
definition is used rather than Lean's `String.lt` so that it evaluates.) -/
def charListLt : List Char → List Char → Bool
  | [], [] => false
  | [], _ :: _ => true
  | _ :: _, [] => false
  | a :: as, b :: bs =>
    if a.toNat < b.toNat then true
    else if b.toNat < a.toNat then false
    else charListLt as bs

def strLt (a b : String) : Bool := charListLt a.data b.data

def insertByKey (p : String × String) : List (String × String) → List (String × String)
  | [] => [p]
  | q :: rest => if strLt p.1 q.1 then p :: q :: rest else q :: insertByKey p rest

/-- Go's `encoding/json` marshals map entries in ascending key order; `sortByKey` is
that canonicalization for the modeled string maps. -/
def sortByKey (l : List (String × String)) : List (String × String) :=
  l.foldr insertByKey []

/-- Canonical image of one `TransportConfig` under JSON marshaling: the struct fields
in declaration order, with the `Options` map in sorted key order. -/
def canonTransport (t : TransportConfig) : TransportConfig :=
  { t with options := sortByKey t.options }

/-- Canonical content of `json.Marshal(packCopy)` where `packCopy` is the pack with
its `Signature` field cleared (`signConfigPack`/`VerifyConfigPack` both serialize
exactly this). Go's JSON encoding of this struct is injective up to map key order:
struct fields appear in declaration order, strings/integers/base64 byte strings
render injectively, and maps are emitted in sorted key order — so two packs marshal
to the same bytes exactly when their canonical contents are equal. -/
structure PackContent where
  version : String
  timestamp : Int
  gateways : List GatewayInfo
  transports : List TransportConfig
  discovery : DiscoveryConfig
  metadata : List (String × String)
  publicKey : Bytes
deriving DecidableEq

def marshalPack (pack : SignedConfigPack) : PackContent :=
  { version := pack.version
    timestamp := pack.timestamp
    gateways := pack.gateways
    transports := pack.transports.map canonTransport
    discovery := pack.discovery
    metadata := sortByKey pack.metadata
    publicKey := pack.publicKey }

/-! ### Injective numeric encoding of pack contents (for the symbolic signatures) -/

def encNats : List Nat → Nat
  | [] => 0
  | a :: rest => Nat.pair a (encNats rest) + 1

def encStr (s : String) : Nat := encNats (s.data.map Char.toNat)

def encInt : Int → Nat
  | .ofNat n => 2 * n
  | .negSucc n => 2 * n + 1

def encBool : Bool → Nat
  | false => 0
  | true => 1

def encRat (q : Rat) : Nat := Nat.pair (encInt q.num) q.den

def encList {α : Type} (f : α → Nat) (l : List α) : Nat := encNats (l.map f)

def encSS (p : String × String) : Nat := Nat.pair (encStr p.1) (encStr p.2)

def encGw (g : GatewayInfo) : Nat :=
  Nat.pair (encStr g.id) (Nat.pair (encStr g.address) (Nat.pair (encInt g.port)
    (Nat.pair (encList encStr g.transports) (Nat.pair (encStr g.region)
    (Nat.pair (encRat g.load) (Nat.pair (encBool g.isHoneypot) (encNats g.publicKey)))))))

def encTr (t : TransportConfig) : Nat :=
  Nat.pair (encStr t.type) (Nat.pair (encList encStr t.endpoints)
    (Nat.pair (encStr t.fingerprint) (encList encSS t.options)))

def encDisc (d : DiscoveryConfig) : Nat :=
  Nat.pair (encList encStr d.channels) (Nat.pair (encInt d.scanInterval)
    (encBool d.batteryAware))

def encContent (c : PackContent) : Nat :=
  Nat.pair (encStr c.version) (Nat.pair (encInt c.timestamp)
    (Nat.pair (encList encGw c.gateways) (Nat.pair (encList encTr c.transports)
    (Nat.pair (encDisc c.discovery) (Nat.pair (encList encSS c.metadata)
    (encNats c.publicKey))))))

/-! ### Symbolic Ed25519 (`crypto/ed25519`) -/

/-- Public key derived from the secret scalar `sk`: 32 bytes carrying `sk`
injectively. -/
def pubKeyBytes (sk : Nat) : Bytes := sk :: List.replicate 31 0

/-- Deterministic Ed25519 signature of the serialized content under `sk`: 64 bytes
whose first entry encodes the (key, message) pair injectively — the ideal
unforgeable deterministic signature functionality. -/
def signBytes (sk : Nat) (content : PackContent) : Bytes :=
  Nat.pair sk (encContent content) :: List.replicate 63 0

/-- Behavior of Go's `ed25519.Verify(publicKey, message, sig)`: it panics
(modeled as `none`) when `len(publicKey) != 32`, returns `false` when
`len(sig) != 64`, and otherwise performs the signature check — here the ideal
check that `sig` is the signature of `message` under the key pair embedded in
`publicKey`. -/
def ed25519Verify (publicKey : Bytes) (content : PackContent) (sig : Bytes) :
    Option Bool :=
  if publicKey.length ≠ 32 then none
  else some (decide (sig.length = 64) &&
    decide (publicKey = pubKeyBytes (publicKey.headD 0)) &&
    decide (sig = signBytes (publicKey.headD 0) content))

/-- Flip bit `k` of signature byte `i`. -/
def flipBit (sig : Bytes) (i k : Nat) : Bytes :=
  sig.set i (sig.getD i 0 ^^^ 2 ^ k)

/-! ### The config service operations (pack.go) -/

/-- Function `calculateLoad` (config/pack.go) — the config package's copy of the
load computation, byte-for-byte the same logic as the geo one. -/
def calculateLoad (gw : Gateway) : Rat :=
  match gw.maxUsers with
  | none => 1 / 2
  | some m => if m = 0 then 1 / 2 else (gw.currentUsers : Rat) / (m : Rat)

def insertByLoad (a : Gateway) : List Gateway → List Gateway
  | [] => [a]
  | b :: rest =>
    if calculateLoad a ≤ calculateLoad b then a :: b :: rest else b :: insertByLoad a rest

/-- The `sort.Slice(gateways, less)` call of `selectGateways` with
`less i j = calculateLoad(g[i]) < calculateLoad(g[j])`. Go's `sort.Slice` is an
unspecified (and not stable) comparison sort; it is modeled as an insertion sort
over the same comparator. No verified claim depends on which comparison sort this
call uses — the tie-order claim C7 targets the geo implementation, whose exact
loop is embedded above as `innerLoop`/`outerLoop`. -/
def sortSliceByLoad (l : List Gateway) : List Gateway := l.foldr insertByLoad []

/-- Method `selectGateways` (pack.go): query the region's gateways (abstracted as
the input list), sort by computed load, keep at most `maxGateways = 5`, and project
to `GatewayInfo` — with `IsHoneypot` hardcoded `false`. The honeypot branch for a
nil or invalid attestation verdict contains only a TODO comment in the source and
adds nothing. -/
def selectGateways (gateways : List Gateway)
    (attestationResult : Option ConfigAttestationResult) : List GatewayInfo :=
  let _ := attestationResult
  let sorted := sortSliceByLoad gateways
  let limited := sorted.take 5
  limited.map fun gw =>
    { id := gw.id
      address := gw.ipAddress
      port := gw.port
      transports := gw.transportTypes
      region := gw.region
      load := calculateLoad gw
      isHoneypot := false
      publicKey := gw.publicKey }

/-- Method `getTransportConfigs` (pack.go): the static transport-disguise set. -/
def getTransportConfigs : List TransportConfig :=
  [{ type := "masque"
     endpoints := ["icloud.com", "www.icloud.com"]
     fingerprint := "apple_icloud"
     options := [("quic_version", "1")] },
   { type := "xtls"
     endpoints := ["microsoft.com", "www.microsoft.com"]
     fingerprint := "microsoft_edge"
     options := [("reality", "true")] },
   { type := "parasite"
     endpoints := ["cdn.cloudflare.com", "cdnjs.cloudflare.com"]
     fingerprint := ""
     options := [("header_encoding", "base64url")] },
   { type := "ssh"
     endpoints := []
     fingerprint := ""
     options := [("obfuscated", "true")] }]

/-- Method `getDiscoveryConfig` (pack.go): the static discovery-channel set. -/
def getDiscoveryConfig : DiscoveryConfig :=
  { channels := ["gps", "fm_rds", "dtv", "plc", "gsm", "lte", "blockchain"]
    scanInterval := 300
    batteryAware := true }

/-- Method `signConfigPack` (pack.go): copy the pack, clear its `Signature`, marshal,
and sign with the service's private key (`marshalPack` ignores the signature field,
which is exactly the cleared-copy serialization). -/
def signConfigPack (s : ConfigService) (pack : SignedConfigPack) : Bytes :=
  signBytes s.privateKey (marshalPack pack)

/-- Method `VerifyConfigPack` (pack.go): copy the pack, clear its `Signature`,
marshal, and call `ed25519.Verify` with the pack's own embedded `PublicKey`.
`none` models the panic inside `ed25519.Verify` on a bad key length. The method's
receiver is unused in the source, mirrored by the unused `s` parameter. -/
def VerifyConfigPack (s : ConfigService) (pack : SignedConfigPack) : Option Bool :=
  let _ := s
  ed25519Verify pack.publicKey (marshalPack pack) pack.signature

/-- The pack exactly as `GenerateConfigPack` constructs it before the signing step
(its `Signature` still nil). -/
def unsignedPack (s : ConfigService) (now : Int) (clientID region : String)
    (dbGateways : List Gateway) (attestationResult : Option ConfigAttestationResult) :
    SignedConfigPack :=
  { version := "1.0"
    timestamp := now
    gateways := selectGateways dbGateways attestationResult
    transports := getTransportConfigs
    discovery := getDiscoveryConfig
    metadata := [("client_id", clientID), ("region", region)]
    signature := []
    publicKey := s.publicKey }

/-- Method `GenerateConfigPack` (pack.go): select gateways for the verdict, attach
the static transport and discovery descriptors, stamp version `"1.0"` and the
current time (`now`), store the client/region metadata and the service public key
(`unsignedPack`), then sign. The database fetch is abstracted as `dbGateways`. -/
def GenerateConfigPack (s : ConfigService) (now : Int) (clientID region : String)
    (dbGateways : List Gateway) (attestationResult : Option ConfigAttestationResult) :
    SignedConfigPack :=
  let pack := unsignedPack s now clientID region dbGateways attestationResult
  { pack with signature := signConfigPack s pack }

/-- Forge helper for claim C4: give a pack an arbitrary key pair, embedding the new
public key and re-signing the serialization (with signature cleared) under the new
private key. -/
def resignPack (sk : Nat) (pack : SignedConfigPack) : SignedConfigPack :=
  let p := { pack with publicKey := pubKeyBytes sk }
  { p with signature := signBytes sk (marshalPack p) }

/-! ## Package `attestation` (verifier.go): the iOS App Attest path -/

/-- Structure `attestation.AttestationRequest` (verifier.go). -/
structure AttestationRequest where
  platform : String
  token : String
  deviceID : String
  keyID : String
deriving DecidableEq

/-- Structure `attestation.AttestationResult` (verifier.go). The Go `Timestamp` is
`time.Time`; the clock is passed in as `now`. -/
structure AttestationResult where
  isValid : Bool
  deviceIntegrity : String
  platform : String
  deviceID : String
  timestamp : Int
  reason : String
deriving DecidableEq

/-- The fields of `AttestationService` the iOS verification path reads. -/
structure AppAttestConfig where
  appleTeamID : String
  appleBundleID : String
  appleProduction : Bool
  allowBypass : Bool
deriving DecidableEq

/-- The two external calls of `verifyDCAppAttest`: `json.Unmarshal` of the token
into an `attestation.AuthenticatorAttestationResponse` (a parse that either fails
or yields an opaque attestation object, here a `Nat`), and `aar.Verify(appID,
production)`, which fails with an error or yields a (public key, receipt) pair. -/
structure AppAttestBackend where
  parse : String → Option Nat
  verify : Nat → String → Bool → Except String (Bytes × Bytes)

/-- Method `appleAppID` (verifier.go): `teamID.bundleID`, or `""` when either part
is missing. -/
def appleAppID (s : AppAttestConfig) : String :=
  if s.appleTeamID = "" ∨ s.appleBundleID = "" then ""
  else s.appleTeamID ++ "." ++ s.appleBundleID

/-- Method `verifyDCAppAttest` (verifier.go, lines 227-275): the iOS App Attest
verification path. Returns the result paired with whether the Go `error` return is
non-nil. Note the source checks only `req.Token == ""` (reason `missing_token`) and
never reads `req.KeyID`. -/
def verifyDCAppAttest (s : AppAttestConfig) (backend : AppAttestBackend) (now : Int)
    (req : AttestationRequest) : AttestationResult × Bool :=
  let result : AttestationResult :=
    { isValid := false, deviceIntegrity := "", platform := "ios",
      deviceID := req.deviceID, timestamp := now, reason := "" }
  if req.token = "" then
    ({ result with isValid := false, reason := "missing_token" }, false)
  else
    let appID := appleAppID s
    if appID = "" then
      if s.allowBypass then
        ({ result with isValid := true, deviceIntegrity := "BYPASS_ENABLED" }, false)
      else
        ({ result with isValid := false, reason := "missing_dcappattest_config" }, false)
    else
      match backend.parse req.token with
      | none => ({ result with isValid := false, reason := "invalid_attestation_format" }, false)
      | some aar =>
        match backend.verify aar appID s.appleProduction with
        | .error _ =>
          ({ result with isValid := false, reason := "dcappattest_verification_failed" }, true)
        | .ok _ =>
          ({ result with isValid := true, deviceIntegrity := "MEETS_STRONG_INTEGRITY" }, false)

/-! ## Concrete instances used by claim witnesses and counterexamples -/

/-- A 13-rune string whose accumulated `hashString` hash is exactly `2^63`, i.e.
`minInt64` after wrapping: the digits of `2^63` in base 31. -/
def minIntString : String :=
  String.mk ([11, 22, 0, 3, 18, 9, 5, 17, 18, 10, 4, 3, 8].map Char.ofNat)

def gwA : Gateway :=
  { id := "gw-a", publicKey := [1], ipAddress := "10.0.0.1", port := 443,
    transportTypes := ["masque"], region := "us-east-1", currentUsers := 1,
    maxUsers := some 2, status := "active", isHoneypot := false, load := 0 }

/-- Tie gateway 1: zero max capacity, so its computed load is the 0.5 default. -/
def gwT1 : Gateway :=
  { id := "gw-t1", publicKey := [2], ipAddress := "10.0.0.2", port := 443,
    transportTypes := ["xtls"], region := "us-east-1", currentUsers := 7,
    maxUsers := some 0, status := "active", isHoneypot := false, load := 0 }

/-- Tie gateway 2: unknown max capacity, so its computed load is also 0.5. -/
def gwT2 : Gateway :=
  { id := "gw-t2", publicKey := [3], ipAddress := "10.0.0.3", port := 443,
    transportTypes := ["masque"], region := "us-east-1", currentUsers := 3,
    maxUsers := none, status := "active", isHoneypot := false, load := 0 }

/-- A low-load gateway (1 of 4 users). -/
def gwLow : Gateway :=
  { id := "gw-low", publicKey := [4], ipAddress := "10.0.0.4", port := 443,
    transportTypes := ["masque"], region := "us-east-1", currentUsers := 1,
    maxUsers := some 4, status := "active", isHoneypot := false, load := 0 }

/-- A decoy-flagged gateway as it would sit in the `gateways` table
(`is_honeypot = TRUE`), mirroring the repository's own config test fixture. -/
def hpGw : Gateway :=
  { id := "honeypot-id", publicKey := [9], ipAddress := "10.0.0.9", port := 443,
    transportTypes := ["masque", "xtls"], region := "us-east-1", currentUsers := 0,
    maxUsers := some 100, status := "active", isHoneypot := true, load := 0 }

def svc0 : ConfigService := { privateKey := 5, publicKey := pubKeyBytes 5 }

def pack0 : SignedConfigPack :=
  GenerateConfigPack svc0 1700000000 "client-1" "us-east-1" [gwA] none

def iosCfg0 : AppAttestConfig :=
  { appleTeamID := "TEAM12345", appleBundleID := "org.lumenlink.app",
    appleProduction := true, allowBypass := false }

/-- A backend whose parse and verification both succeed, so that any rejection
observed with it cannot be attributed to the cryptographic step. -/
def backend0 : AppAttestBackend :=
  { parse := fun _ => some 0, verify := fun _ _ _ => Except.ok ([], []) }

/-! ## Lemmas: Go integer semantics -/

theorem wrap64_bounds (n : Int) : -(2 ^ 63) ≤ wrap64 n ∧ wrap64 n < 2 ^ 63 := by
  unfold wrap64
  have h1 : 0 ≤ (n + 2 ^ 63) % 2 ^ 64 := Int.emod_nonneg _ (by norm_num)
  have h2 : (n + 2 ^ 63) % 2 ^ 64 < 2 ^ 64 := Int.emod_lt_of_pos _ (by norm_num)
  norm_num at h1 h2 ⊢
  omega

theorem wrap64_eq_self (n : Int) (h1 : -(2 ^ 63) ≤ n) (h2 : n < 2 ^ 63) :
    wrap64 n = n := by
  unfold wrap64
  rw [Int.emod_eq_of_lt (by norm_num at h1 ⊢; omega) (by norm_num at h2 ⊢; omega)]
  ring

theorem goMod_100_bounds (a : Int) : -100 < goMod a 100 ∧ goMod a 100 < 100 := by
  unfold goMod
  cases a with
  | ofNat m =>
    have h : Int.tmod (Int.ofNat m) 100 = ((m % 100 : Nat) : Int) := rfl
    rw [h]
    have := Nat.mod_lt m (show 0 < 100 by norm_num)
    omega
  | negSucc m =>
    have h : Int.tmod (Int.negSucc m) 100 = -(((m + 1) % 100 : Nat) : Int) := rfl
    rw [h]
    have := Nat.mod_lt (m + 1) (show 0 < 100 by norm_num)
    omega

theorem goMod_100_nonneg (a : Int) (h : 0 ≤ a) : 0 ≤ goMod a 100 := by
  unfold goMod
  cases a with
  | ofNat m =>
    have h2 : Int.tmod (Int.ofNat m) 100 = ((m % 100 : Nat) : Int) := rfl
    rw [h2]; omega
  | negSucc m => exact absurd h (by simp [Int.negSucc_eq]; omega)

/-! ## Lemmas: `hashString` -/

theorem hashFold_bounds (s : String) : -(2 ^ 63) ≤ hashFold s ∧ hashFold s < 2 ^ 63 := by
  unfold hashFold
  generalize s.data = l
  have aux : ∀ (l : List Char) (acc : Int), -(2 ^ 63) ≤ acc → acc < 2 ^ 63 →
      -(2 ^ 63) ≤ l.foldl (fun hash char => wrap64 (hash * 31 + char.toNat)) acc ∧
      l.foldl (fun hash char => wrap64 (hash * 31 + char.toNat)) acc < 2 ^ 63 := by
    intro l
    induction l with
    | nil => intro acc h1 h2; exact ⟨h1, h2⟩
    | cons c rest ih =>
      intro acc _ _
      have hb := wrap64_bounds (acc * 31 + c.toNat)
      exact ih (wrap64 (acc * 31 + c.toNat)) hb.1 hb.2
  exact aux l 0 (by norm_num) (by norm_num)

theorem hashString_bounds (s : String) :
    -100 < hashString s ∧ hashString s < 100 ∧
    (hashFold s ≠ -(2 ^ 63) → 0 ≤ hashString s) := by
  have hf := hashFold_bounds s
  unfold hashString
  refine ⟨(goMod_100_bounds _).1, (goMod_100_bounds _).2, ?_⟩
  intro hne
  show 0 ≤ goMod (if hashFold s < 0 then goNeg (hashFold s) else hashFold s) 100
  by_cases hlt : hashFold s < 0
  · rw [if_pos hlt]
    have h1 : -(2 ^ 63) ≤ -hashFold s := by omega
    have h2 : -hashFold s < 2 ^ 63 := by omega
    unfold goNeg
    rw [wrap64_eq_self _ h1 h2]
    exact goMod_100_nonneg _ (by omega)
  · rw [if_neg hlt]
    exact goMod_100_nonneg _ (by omega)

/-! ## Lemmas: the geo selection sort -/

theorem sortStep_length (l : List Gateway) (i j : Nat) :
    (sortStep l i j).length = l.length := by
  simp only [sortStep, lswap]
  split <;> simp

theorem innerLoop_length (l : List Gateway) (i j : Nat) :
    (innerLoop l i j).length = l.length := by
  generalize hk : l.length - j = k
  induction k generalizing l j with
  | zero =>
    rw [innerLoop, dif_neg (by omega)]
  | succ k ih =>
    rw [innerLoop]
    by_cases h : j < l.length
    · rw [dif_pos h, ih (sortStep l i j) (j + 1) (by rw [sortStep_length]; omega),
        sortStep_length]
    · rw [dif_neg h]

theorem selPassG_length (cur : Gateway) (todo : List Gateway) :
    (selPassG cur todo).2.length = todo.length := by
  induction todo generalizing cur with
  | nil => rfl
  | cons x xs ih => simp only [selPassG]; split <;> simp [ih]

theorem selectionSortG_nil : selectionSortG [] = [] := rfl

theorem selectionSortG_cons (c : Gateway) (rest : List Gateway) :
    selectionSortG (c :: rest) =
      (selPassG c rest).1 :: selectionSortG (selPassG c rest).2 := by
  unfold selectionSortG
  rw [List.length_cons,
    show selectionSortAux (rest.length + 1) (c :: rest) =
      (selPassG c rest).1 :: selectionSortAux rest.length (selPassG c rest).2 from rfl,
    selPassG_length]

theorem getD_append_pos {α : Type} [Inhabited α] (pre rest : List α) (a d : α)
    (n : Nat) (h : n = pre.length) : (pre ++ a :: rest).getD n d = a := by
  subst h
  induction pre with
  | nil => rfl
  | cons p ps ih => simpa using ih

theorem set_append_pos {α : Type} (pre rest : List α) (a b : α)
    (n : Nat) (h : n = pre.length) : (pre ++ a :: rest).set n b = pre ++ b :: rest := by
  subst h
  induction pre with
  | nil => rfl
  | cons p ps ih =>
    show p :: (ps ++ a :: rest).set ps.length b = p :: (ps ++ b :: rest)
    rw [ih]

theorem sortStep_split (pre done todo : List Gateway) (cur x : Gateway) :
    sortStep (pre ++ cur :: (done ++ x :: todo)) pre.length (pre.length + 1 + done.length) =
      if (setLoad cur).load > (setLoad x).load then
        pre ++ setLoad x :: (done ++ setLoad cur :: todo)
      else
        pre ++ setLoad cur :: (done ++ setLoad x :: todo) := by
  have hlen : pre.length + 1 + done.length = (pre ++ setLoad cur :: done).length := by
    simp; omega
  have hlen2 : pre.length + 1 + done.length = (pre ++ setLoad x :: done).length := by
    simp; omega
  simp only [sortStep, lswap]
  rw [getD_append_pos pre (done ++ x :: todo) cur default pre.length rfl,
    set_append_pos pre (done ++ x :: todo) cur (setLoad cur) pre.length rfl,
    show pre ++ setLoad cur :: (done ++ x :: todo) =
      (pre ++ setLoad cur :: done) ++ x :: todo by simp,
    getD_append_pos (pre ++ setLoad cur :: done) todo x default _ hlen,
    set_append_pos (pre ++ setLoad cur :: done) todo x (setLoad x) _ hlen]
  have egi : ((pre ++ setLoad cur :: done) ++ setLoad x :: todo).getD pre.length default
      = setLoad cur := by
    rw [show (pre ++ setLoad cur :: done) ++ setLoad x :: todo =
      pre ++ setLoad cur :: (done ++ setLoad x :: todo) by simp]
    exact getD_append_pos pre _ (setLoad cur) default pre.length rfl
  have egj : ((pre ++ setLoad cur :: done) ++ setLoad x :: todo).getD
      (pre.length + 1 + done.length) default = setLoad x :=
    getD_append_pos (pre ++ setLoad cur :: done) todo (setLoad x) default _ hlen
  rw [egi, egj]
  by_cases hc : (setLoad cur).load > (setLoad x).load
  · rw [if_pos hc, if_pos hc]
    rw [show (pre ++ setLoad cur :: done) ++ setLoad x :: todo =
      pre ++ setLoad cur :: (done ++ setLoad x :: todo) by simp,
      set_append_pos pre (done ++ setLoad x :: todo) (setLoad cur) (setLoad x) pre.length rfl,
      show pre ++ setLoad x :: (done ++ setLoad x :: todo) =
        (pre ++ setLoad x :: done) ++ setLoad x :: todo by simp,
      set_append_pos (pre ++ setLoad x :: done) todo (setLoad x) (setLoad cur) _ hlen2]
    simp
  · rw [if_neg hc, if_neg hc]
    simp

theorem innerLoop_corr (todo : List Gateway) :
    ∀ (done pre : List Gateway) (cur : Gateway),
    innerLoop (pre ++ cur :: (done ++ todo)) pre.length (pre.length + 1 + done.length) =
      pre ++ (selPassG cur todo).1 :: (done ++ (selPassG cur todo).2) := by
  induction todo with
  | nil =>
    intro done pre cur
    rw [innerLoop, dif_neg (by simp; omega)]
    simp [selPassG]
  | cons x xs ih =>
    intro done pre cur
    rw [innerLoop, dif_pos (by simp; omega), sortStep_split pre done xs cur x]
    simp only [selPassG]
    by_cases hc : (setLoad cur).load > (setLoad x).load
    · rw [if_pos hc, if_pos hc]
      have h := ih (done ++ [setLoad cur]) pre (setLoad x)
      simp only [List.append_assoc, List.singleton_append, List.length_append,
        List.length_cons, List.length_nil] at h
      rw [show pre.length + 1 + done.length + 1 = pre.length + 1 + (done.length + 0 + 1) by
        omega]
      exact h
    · rw [if_neg hc, if_neg hc]
      have h := ih (done ++ [setLoad x]) pre (setLoad cur)
      simp only [List.append_assoc, List.singleton_append, List.length_append,
        List.length_cons, List.length_nil] at h
      rw [show pre.length + 1 + done.length + 1 = pre.length + 1 + (done.length + 0 + 1) by
        omega]
      exact h

theorem outerLoop_corr (suffix : List Gateway) :
    ∀ (pre : List Gateway),
    outerLoop (pre ++ suffix) pre.length = pre ++ selectionSortG suffix := by
  generalize hk : suffix.length = k
  induction k generalizing suffix with
  | zero =>
    intro pre
    have hnil : suffix = [] := List.length_eq_zero.mp hk
    subst hnil
    rw [outerLoop, dif_neg (by simp)]
    simp [selectionSortG_nil]
  | succ k ih =>
    intro pre
    match suffix, hk with
    | c :: rest, hk =>
      by_cases hrest : rest = []
      · subst hrest
        rw [outerLoop, dif_neg (by simp)]
        rw [selectionSortG_cons]
        simp [selPassG, selectionSortG_nil]
      · have hpos : 0 < rest.length := List.length_pos.mpr hrest
        rw [outerLoop, dif_pos (by simp; omega)]
        have hinner := innerLoop_corr rest [] pre c
        simp only [List.nil_append, List.length_nil, Nat.add_zero] at hinner
        rw [hinner]
        have hk2 : (selPassG c rest).2.length = k := by
          rw [selPassG_length]
          simpa using hk
        have h := ih (selPassG c rest).2 hk2 (pre ++ [(selPassG c rest).1])
        simp only [List.append_assoc, List.singleton_append, List.length_append,
          List.length_cons, List.length_nil] at h
        rw [show pre.length + 1 = pre.length + (0 + 1) by omega]
        rw [h, selectionSortG_cons]

theorem outerLoop_zero (l : List Gateway) : outerLoop l 0 = selectionSortG l := by
  simpa using outerLoop_corr l []

theorem calc_setLoad (gw : Gateway) :
    calculateGatewayLoad (setLoad gw) = calculateGatewayLoad gw := rfl

theorem load_setLoad (gw : Gateway) : (setLoad gw).load = calculateGatewayLoad gw := rfl

theorem selPassG_min (cur : Gateway) (todo : List Gateway) :
    calculateGatewayLoad (selPassG cur todo).1 ≤ calculateGatewayLoad cur ∧
    ∀ g ∈ (selPassG cur todo).2,
      calculateGatewayLoad (selPassG cur todo).1 ≤ calculateGatewayLoad g := by
  induction todo generalizing cur with
  | nil => exact ⟨le_refl _, by intro g hg; cases hg⟩
  | cons x xs ih =>
    simp only [selPassG]
    by_cases hc : (setLoad cur).load > (setLoad x).load
    · rw [if_pos hc]
      rw [load_setLoad, load_setLoad] at hc
      have h := ih (setLoad x)
      rw [calc_setLoad] at h
      refine ⟨le_of_lt (lt_of_le_of_lt h.1 hc), ?_⟩
      intro g hg
      rcases List.mem_cons.mp hg with hg | hg
      · subst hg
        rw [calc_setLoad]
        exact le_of_lt (lt_of_le_of_lt h.1 hc)
      · exact h.2 g hg
    · rw [if_neg hc]
      rw [load_setLoad, load_setLoad] at hc
      have hle : calculateGatewayLoad cur ≤ calculateGatewayLoad x := not_lt.mp hc
      have h := ih (setLoad cur)
      rw [calc_setLoad] at h
      refine ⟨h.1, ?_⟩
      intro g hg
      rcases List.mem_cons.mp hg with hg | hg
      · subst hg
        rw [calc_setLoad]
        exact le_trans h.1 hle
      · exact h.2 g hg

theorem selPassG_perm (cur : Gateway) (todo : List Gateway) :
    List.Perm (((selPassG cur todo).1 :: (selPassG cur todo).2).map calculateGatewayLoad)
      ((cur :: todo).map calculateGatewayLoad) := by
  induction todo generalizing cur with
  | nil => exact List.Perm.refl _
  | cons x xs ih =>
    simp only [selPassG]
    by_cases hc : (setLoad cur).load > (setLoad x).load
    · rw [if_pos hc]
      have h := ih (setLoad x)
      simp only [List.map_cons, calc_setLoad] at h ⊢
      exact (List.Perm.swap _ _ _).trans (List.Perm.cons _ h)
    · rw [if_neg hc]
      have h := ih (setLoad cur)
      simp only [List.map_cons, calc_setLoad] at h ⊢
      exact ((List.Perm.swap _ _ _).trans (List.Perm.cons _ h)).trans
        (List.Perm.swap _ _ _)

theorem selectionSortG_perm (l : List Gateway) :
    List.Perm ((selectionSortG l).map calculateGatewayLoad)
      (l.map calculateGatewayLoad) := by
  generalize hk : l.length = k
  induction k generalizing l with
  | zero =>
    have hnil : l = [] := List.length_eq_zero.mp hk
    subst hnil
    exact List.Perm.refl _
  | succ k ih =>
    match l, hk with
    | c :: rest, hk =>
      rw [selectionSortG_cons]
      have hk2 : (selPassG c rest).2.length = k := by
        rw [selPassG_length]; simpa using hk
      have h1 := ih (selPassG c rest).2 hk2
      simp only [List.map_cons]
      exact (List.Perm.cons _ h1).trans (by simpa using selPassG_perm c rest)

theorem selectionSortG_sorted (l : List Gateway) :
    List.Sorted (· ≤ ·) ((selectionSortG l).map calculateGatewayLoad) := by
  generalize hk : l.length = k
  induction k generalizing l with
  | zero =>
    have hnil : l = [] := List.length_eq_zero.mp hk
    subst hnil
    simp [selectionSortG_nil]
  | succ k ih =>
    match l, hk with
    | c :: rest, hk =>
      rw [selectionSortG_cons]
      have hk2 : (selPassG c rest).2.length = k := by
        rw [selPassG_length]; simpa using hk
      simp only [List.map_cons]
      rw [List.sorted_cons]
      constructor
      · intro b hb
        have hb2 : b ∈ (selPassG c rest).2.map calculateGatewayLoad :=
          (selectionSortG_perm (selPassG c rest).2).mem_iff.mp hb
        rcases List.mem_map.mp hb2 with ⟨g, hg, rfl⟩
        exact (selPassG_min c rest).2 g hg
      · exact ih (selPassG c rest).2 hk2

theorem getLoadBalancedGateways_eq (gateways : List Gateway) (count : Nat) :
    getLoadBalancedGateways gateways count =
      (selectionSortG gateways).take (min count gateways.length) := by
  simp only [getLoadBalancedGateways]
  by_cases h0 : gateways.length = 0
  · rw [if_pos h0]
    have hnil : gateways = [] := List.length_eq_zero.mp h0
    subst hnil
    simp [selectionSortG_nil]
  · rw [if_neg h0, outerLoop_zero]
    have hlen : (selectionSortG gateways).length = gateways.length := by
      have h := (selectionSortG_perm gateways).length_eq
      simpa using h
    rw [hlen]
    have harg : (if count > gateways.length then gateways.length else count)
        = min count gateways.length := by
      split <;> omega
    rw [harg]

/-! ## Lemmas: injectivity of the pack-content encoding -/

theorem encNats_inj : ∀ {l1 l2 : List Nat}, encNats l1 = encNats l2 → l1 = l2 := by
  intro l1
  induction l1 with
  | nil =>
    intro l2 h
    cases l2 with
    | nil => rfl
    | cons b rest2 => exact absurd h.symm (by simp [encNats])
  | cons a rest ih =>
    intro l2 h
    cases l2 with
    | nil => exact absurd h (by simp [encNats])
    | cons b rest2 =>
      simp only [encNats] at h
      have hp : Nat.pair a (encNats rest) = Nat.pair b (encNats rest2) := by omega
      have h2 := Nat.pair_eq_pair.mp hp
      rw [h2.1, ih h2.2]

theorem charToNat_inj {a b : Char} (h : a.toNat = b.toNat) : a = b := by
  have h2 : Char.ofNat a.toNat = Char.ofNat b.toNat := congrArg Char.ofNat h
  rwa [Char.ofNat_toNat, Char.ofNat_toNat] at h2

theorem encStr_inj {s1 s2 : String} (h : encStr s1 = encStr s2) : s1 = s2 := by
  unfold encStr at h
  have hd := encNats_inj h
  have hchars : s1.data = s2.data :=
    List.map_injective_iff.mpr (fun a b hab => charToNat_inj hab) hd
  cases s1
  cases s2
  simp only at hchars
  rw [hchars]

theorem encInt_inj {a b : Int} (h : encInt a = encInt b) : a = b := by
  cases a with
  | ofNat m =>
    cases b with
    | ofNat n =>
      simp only [encInt] at h
      have hmn : m = n := by omega
      rw [hmn]
    | negSucc n => simp only [encInt] at h; omega
  | negSucc m =>
    cases b with
    | ofNat n => simp only [encInt] at h; omega
    | negSucc n =>
      simp only [encInt] at h
      have hmn : m = n := by omega
      rw [hmn]

theorem encBool_inj {a b : Bool} (h : encBool a = encBool b) : a = b := by
  cases a <;> cases b <;> simp only [encBool] at h <;> first | rfl | omega

theorem encRat_inj {q1 q2 : Rat} (h : encRat q1 = encRat q2) : q1 = q2 := by
  unfold encRat at h
  have h2 := Nat.pair_eq_pair.mp h
  exact Rat.ext (encInt_inj h2.1) h2.2

theorem encList_inj {α : Type} {f : α → Nat} (hf : ∀ {a b : α}, f a = f b → a = b)
    {l1 l2 : List α} (h : encList f l1 = encList f l2) : l1 = l2 := by
  unfold encList at h
  exact List.map_injective_iff.mpr (fun a b hab => hf hab) (encNats_inj h)

theorem encSS_inj {p q : String × String} (h : encSS p = encSS q) : p = q := by
  unfold encSS at h
  have h2 := Nat.pair_eq_pair.mp h
  have ha := encStr_inj h2.1
  have hb := encStr_inj h2.2
  cases p
  cases q
  simp only at ha hb
  rw [ha, hb]

theorem encGw_inj {g1 g2 : GatewayInfo} (h : encGw g1 = encGw g2) : g1 = g2 := by
  unfold encGw at h
  obtain ⟨h1, h⟩ := Nat.pair_eq_pair.mp h
  obtain ⟨h2, h⟩ := Nat.pair_eq_pair.mp h
  obtain ⟨h3, h⟩ := Nat.pair_eq_pair.mp h
  obtain ⟨h4, h⟩ := Nat.pair_eq_pair.mp h
  obtain ⟨h5, h⟩ := Nat.pair_eq_pair.mp h
  obtain ⟨h6, h⟩ := Nat.pair_eq_pair.mp h
  obtain ⟨h7, h8⟩ := Nat.pair_eq_pair.mp h
  cases g1
  cases g2
  simp only [GatewayInfo.mk.injEq]
  exact ⟨encStr_inj h1, encStr_inj h2, encInt_inj h3,
    encList_inj (fun hab => encStr_inj hab) h4, encStr_inj h5, encRat_inj h6,
    encBool_inj h7, encNats_inj h8⟩

theorem encTr_inj {t1 t2 : TransportConfig} (h : encTr t1 = encTr t2) : t1 = t2 := by
  unfold encTr at h
  obtain ⟨h1, h⟩ := Nat.pair_eq_pair.mp h
  obtain ⟨h2, h⟩ := Nat.pair_eq_pair.mp h
  obtain ⟨h3, h4⟩ := Nat.pair_eq_pair.mp h
  cases t1
  cases t2
  simp only [TransportConfig.mk.injEq]
  exact ⟨encStr_inj h1, encList_inj (fun hab => encStr_inj hab) h2, encStr_inj h3,
    encList_inj (fun hab => encSS_inj hab) h4⟩

theorem encDisc_inj {d1 d2 : DiscoveryConfig} (h : encDisc d1 = encDisc d2) : d1 = d2 := by
  unfold encDisc at h
  obtain ⟨h1, h⟩ := Nat.pair_eq_pair.mp h
  obtain ⟨h2, h3⟩ := Nat.pair_eq_pair.mp h
  cases d1
  cases d2
  simp only [DiscoveryConfig.mk.injEq]
  exact ⟨encList_inj (fun hab => encStr_inj hab) h1, encInt_inj h2, encBool_inj h3⟩

theorem encContent_inj {c1 c2 : PackContent} (h : encContent c1 = encContent c2) :
    c1 = c2 := by
  unfold encContent at h
  obtain ⟨h1, h⟩ := Nat.pair_eq_pair.mp h
  obtain ⟨h2, h⟩ := Nat.pair_eq_pair.mp h
  obtain ⟨h3, h⟩ := Nat.pair_eq_pair.mp h
  obtain ⟨h4, h⟩ := Nat.pair_eq_pair.mp h
  obtain ⟨h5, h⟩ := Nat.pair_eq_pair.mp h
  obtain ⟨h6, h7⟩ := Nat.pair_eq_pair.mp h
  cases c1
  cases c2
  simp only [PackContent.mk.injEq]
  exact ⟨encStr_inj h1, encInt_inj h2, encList_inj (fun hab => encGw_inj hab) h3,
    encList_inj (fun hab => encTr_inj hab) h4, encDisc_inj h5,
    encList_inj (fun hab => encSS_inj hab) h6, encNats_inj h7⟩

/-! ## Lemmas: the symbolic signature scheme and `VerifyConfigPack` -/

theorem signBytes_inj {sk1 sk2 : Nat} {c1 c2 : PackContent}
    (h : signBytes sk1 c1 = signBytes sk2 c2) : sk1 = sk2 ∧ c1 = c2 := by
  unfold signBytes at h
  have hp : Nat.pair sk1 (encContent c1) = Nat.pair sk2 (encContent c2) :=
    (List.cons_eq_cons.mp h).1
  have h2 := Nat.pair_eq_pair.mp hp
  exact ⟨h2.1, encContent_inj h2.2⟩

theorem marshalPack_set_sig (p : SignedConfigPack) (sig : Bytes) :
    marshalPack { p with signature := sig } = marshalPack p := rfl

theorem verify_true_core (sAny : ConfigService) (sk : Nat) (p : SignedConfigPack)
    (hpk : p.publicKey = pubKeyBytes sk)
    (hsig : p.signature = signBytes sk (marshalPack p)) :
    VerifyConfigPack sAny p = some true := by
  unfold VerifyConfigPack ed25519Verify
  rw [hpk, hsig]
  rw [if_neg (by simp [pubKeyBytes])]
  simp [pubKeyBytes, signBytes]

theorem verify_false_of_sig_ne (sAny : ConfigService) (sk : Nat) (p : SignedConfigPack)
    (hpk : p.publicKey = pubKeyBytes sk)
    (hsig : p.signature ≠ signBytes sk (marshalPack p)) :
    VerifyConfigPack sAny p = some false := by
  unfold VerifyConfigPack ed25519Verify
  rw [hpk]
  rw [if_neg (by simp [pubKeyBytes])]
  have hhead : (pubKeyBytes sk).headD 0 = sk := rfl
  rw [hhead]
  simp [hsig]

theorem getD_set_self (l : List Nat) (i a : Nat) (h : i < l.length) :
    (l.set i a).getD i 0 = a := by
  rw [List.getD_eq_getElem (l.set i a) 0 (by simpa using h)]
  exact List.getElem_set_self _

theorem flipBit_ne (sig : Bytes) (i k : Nat) (h : i < sig.length) :
    flipBit sig i k ≠ sig := by
  intro he
  have h1 : (flipBit sig i k).getD i 0 = sig.getD i 0 ^^^ 2 ^ k :=
    getD_set_self sig i _ h
  have h2 : (flipBit sig i k).getD i 0 = sig.getD i 0 := by rw [he]
  have h3 : sig.getD i 0 ^^^ 2 ^ k = sig.getD i 0 := by rw [← h1, h2]
  have hx := congrArg (fun z => sig.getD i 0 ^^^ z) h3
  simp only at hx
  rw [← Nat.xor_assoc, Nat.xor_self, Nat.zero_xor] at hx
  exact absurd hx (Nat.pos_iff_ne_zero.mp (pow_pos (show (0 : Nat) < 2 by norm_num) k))

theorem generated_verify_false (s sv : ConfigService) (now : Int) (clientID region : String)
    (dbGateways : List Gateway) (att : Option ConfigAttestationResult)
    (hpair : s.publicKey = pubKeyBytes s.privateKey) (p' : SignedConfigPack)
    (hpk : p'.publicKey = (GenerateConfigPack s now clientID region dbGateways att).publicKey)
    (hsig : p'.signature = (GenerateConfigPack s now clientID region dbGateways att).signature)
    (hne : marshalPack p' ≠ marshalPack (GenerateConfigPack s now clientID region dbGateways att)) :
    VerifyConfigPack sv p' = some false := by
  apply verify_false_of_sig_ne sv s.privateKey p' (by rw [hpk]; exact hpair)
  intro he
  apply hne
  have hgen : (GenerateConfigPack s now clientID region dbGateways att).signature
      = signBytes s.privateKey
          (marshalPack (GenerateConfigPack s now clientID region dbGateways att)) := rfl
  rw [hsig, hgen] at he
  exact (signBytes_inj he).2.symm

/-! ## Lemmas: rollout percentage bounds -/

theorem clampPercentage_bounds (p : Int) :
    0 ≤ clampPercentage p ∧ clampPercentage p ≤ 100 := by
  unfold clampPercentage
  split
  · omega
  · split <;> omega

theorem getRolloutPercentage_bounds (env : Env) (v r : String) :
    0 ≤ getRolloutPercentage env v r ∧ getRolloutPercentage env v r ≤ 100 := by
  unfold getRolloutPercentage
  split
  next p heq =>
    rcases List.exists_of_findSome?_eq_some heq with ⟨key, _, hkey⟩
    rcases Option.map_eq_some'.mp hkey with ⟨q, _, hq⟩
    rw [← hq]
    exact clampPercentage_bounds q
  next => norm_num

theorem rolloutEnvKeys_eq (v r : String) (hv : normalizeRolloutKey v ≠ "")
    (hr : normalizeRolloutKey r ≠ "") :
    rolloutEnvKeys v r = [keyVR v r, keyV v, keyR r, keyGlobal] := by
  simp only [rolloutEnvKeys, keyVR, keyV, keyR, keyGlobal]
  rw [if_pos ⟨hv, hr⟩, if_pos hv, if_pos hr]
  rfl

/-! ## Claim theorems -/

/-- Claim C1 (confirmed): signing round-trip. For every pack produced by
`GenerateConfigPack` under a consistently paired service key, `VerifyConfigPack`
accepts the unmodified pack; mutating the version, the timestamp, the gateway list
(any field of any entry, or appending an entry), the transports (up to the JSON map
key order that marshaling canonicalizes anyway), the discovery block, or a metadata
entry (likewise up to map key order), or flipping any single bit of any of the 64
signature bytes, makes verification return false. -/
theorem c1_signing_round_trip (s : ConfigService) (now : Int) (clientID region : String)
    (dbGateways : List Gateway) (att : Option ConfigAttestationResult)
    (hp : SignedConfigPack)
    (hgen : hp = GenerateConfigPack s now clientID region dbGateways att)
    (hpair : s.publicKey = pubKeyBytes s.privateKey) :
    VerifyConfigPack s hp = some true
    ∧ (∀ v, v ≠ hp.version → VerifyConfigPack s { hp with version := v } = some false)
    ∧ (∀ t, t ≠ hp.timestamp → VerifyConfigPack s { hp with timestamp := t } = some false)
    ∧ (∀ gws, gws ≠ hp.gateways → VerifyConfigPack s { hp with gateways := gws } = some false)
    ∧ (∀ ts, ts.map canonTransport ≠ hp.transports.map canonTransport →
        VerifyConfigPack s { hp with transports := ts } = some false)
    ∧ (∀ d, d ≠ hp.discovery → VerifyConfigPack s { hp with discovery := d } = some false)
    ∧ (∀ m, sortByKey m ≠ sortByKey hp.metadata →
        VerifyConfigPack s { hp with metadata := m } = some false)
    ∧ (∀ i k, i < 64 →
        VerifyConfigPack s { hp with signature := flipBit hp.signature i k } = some false) := by
  subst hgen
  refine ⟨verify_true_core s s.privateKey _ hpair rfl, ?_, ?_, ?_, ?_, ?_, ?_, ?_⟩
  · intro v hv
    exact generated_verify_false s s now clientID region dbGateways att hpair _ rfl rfl
      (fun he => hv (congrArg PackContent.version he))
  · intro t ht
    exact generated_verify_false s s now clientID region dbGateways att hpair _ rfl rfl
      (fun he => ht (congrArg PackContent.timestamp he))
  · intro gws hgws
    exact generated_verify_false s s now clientID region dbGateways att hpair _ rfl rfl
      (fun he => hgws (congrArg PackContent.gateways he))
  · intro ts hts
    exact generated_verify_false s s now clientID region dbGateways att hpair _ rfl rfl
      (fun he => hts (congrArg PackContent.transports he))
  · intro d hd
    exact generated_verify_false s s now clientID region dbGateways att hpair _ rfl rfl
      (fun he => hd (congrArg PackContent.discovery he))
  · intro m hm
    exact generated_verify_false s s now clientID region dbGateways att hpair _ rfl rfl
      (fun he => hm (congrArg PackContent.metadata he))
  · intro i k hik
    apply verify_false_of_sig_ne s s.privateKey _ hpair
    have hlen : (GenerateConfigPack s now clientID region dbGateways att).signature.length
        = 64 := by
      show (signBytes s.privateKey _).length = 64
      simp [signBytes]
    exact flipBit_ne _ i k (by rw [hlen]; exact hik)

/-- Witness for C1 at a concrete service, database row, and client. -/
theorem c1_signing_round_trip_witness :
    VerifyConfigPack svc0 pack0 = some true
    ∧ VerifyConfigPack svc0 { pack0 with version := "2.0" } = some false
    ∧ VerifyConfigPack svc0 { pack0 with timestamp := 0 } = some false
    ∧ VerifyConfigPack svc0 { pack0 with gateways := [] } = some false
    ∧ VerifyConfigPack svc0 { pack0 with transports := [] } = some false
    ∧ VerifyConfigPack svc0
        { pack0 with discovery := { channels := [], scanInterval := 0, batteryAware := false } }
        = some false
    ∧ VerifyConfigPack svc0
        { pack0 with metadata := [("client_id", "attacker"), ("region", "us-east-1")] }
        = some false
    ∧ VerifyConfigPack svc0 { pack0 with signature := flipBit pack0.signature 0 0 }
        = some false := by
  have h := c1_signing_round_trip svc0 1700000000 "client-1" "us-east-1" [gwA] none
    pack0 rfl rfl
  exact ⟨h.1, h.2.1 "2.0" (by decide), h.2.2.1 0 (by decide), h.2.2.2.1 [] (by decide),
    h.2.2.2.2.1 [] (by decide), h.2.2.2.2.2.1 _ (by decide), h.2.2.2.2.2.2.1 _ (by decide),
    h.2.2.2.2.2.2.2 0 0 (by norm_num)⟩

/-- Claim C2 (code bug): `VerifyConfigPack` panics — it does not return false — when
the pack's public key is nil, empty, or of any length other than 32, because Go's
`ed25519.Verify` panics on a bad public key length and the method passes the
embedded key through unchecked (`none` models the panic). Only the signature-shape
half of the claim holds: with a well-formed 32-byte key, a signature of length
other than 64 verifies as false without panicking. -/
theorem c2_key_shape (sAny : ConfigService) (pack : SignedConfigPack) :
    (pack.publicKey.length ≠ 32 → VerifyConfigPack sAny pack = none)
    ∧ (pack.publicKey.length = 32 → pack.signature.length ≠ 64 →
        VerifyConfigPack sAny pack = some false) := by
  constructor
  · intro h
    unfold VerifyConfigPack ed25519Verify
    rw [if_pos h]
  · intro h32 hsig
    unfold VerifyConfigPack ed25519Verify
    rw [if_neg (by omega)]
    simp [hsig]

/-- Witness for C2: a generated pack whose public key is emptied panics
(`none`), and one whose signature is emptied returns false. -/
theorem c2_key_shape_witness :
    VerifyConfigPack svc0 { pack0 with publicKey := [] } = none
    ∧ VerifyConfigPack svc0 { pack0 with signature := [] } = some false :=
  ⟨(c2_key_shape svc0 { pack0 with publicKey := [] }).1 (by decide),
   (c2_key_shape svc0 { pack0 with signature := [] }).2 (by decide) (by decide)⟩

/-- Claim C3 (code bug): the honeypot branch of `selectGateways` is an empty TODO
and the projection hardcodes `IsHoneypot: false`, so every gateway of every
generated pack — in particular under a nil or invalid attestation verdict — carries
a cleared decoy flag; the pack never contains a decoy-flagged gateway, contradicting
the spec and the repository's own test
`TestGenerateConfigPack_AttestationInvalid_IncludesHoneypots`. -/
theorem c3_no_decoy_ever (s : ConfigService) (now : Int) (clientID region : String)
    (dbGateways : List Gateway) (att : Option ConfigAttestationResult) :
    ((GenerateConfigPack s now clientID region dbGateways att).gateways.all
      fun gw => !gw.isHoneypot) = true := by
  show ((selectGateways dbGateways att).all fun gw => !gw.isHoneypot) = true
  simp only [selectGateways]
  rw [List.all_eq_true]
  intro gw hgw
  rcases List.mem_map.mp hgw with ⟨g, _, rfl⟩
  rfl

/-- Claim C4 (confirmed): `VerifyConfigPack` checks the signature only against the
public key embedded in the pack: the result never depends on the service's
configured key, and re-signing any pack contents under any key pair — embedding that
pair's public key — verifies as true even under a service holding a different key. -/
theorem c4_verify_uses_embedded_key :
    (∀ (s1 s2 : ConfigService) (pack : SignedConfigPack),
      VerifyConfigPack s1 pack = VerifyConfigPack s2 pack)
    ∧ (∀ (sAny : ConfigService) (pack : SignedConfigPack) (sk : Nat),
        VerifyConfigPack sAny (resignPack sk pack) = some true) := by
  refine ⟨fun _ _ _ => rfl, ?_⟩
  intro sAny pack sk
  exact verify_true_core sAny sk (resignPack sk pack) rfl rfl

/-- Claim C5 (counterexample): on the cited iOS verification path
(`verifyDCAppAttest`, verifier.go), an empty token yields reason `missing_token`
— not the claimed `missing_token_or_keyid` — and a present token with an empty key
identifier is not rejected at all: with a parseable token and a succeeding
cryptographic backend it verifies as valid, so a missing key identifier alone never
produces the claimed verdict. -/
theorem c5_counterexample :
    (verifyDCAppAttest iosCfg0 backend0 0
        { platform := "ios", token := "", deviceID := "device-1", keyID := "" }).1.reason
      = "missing_token"
    ∧ ("missing_token" : String) ≠ "missing_token_or_keyid"
    ∧ (verifyDCAppAttest iosCfg0 backend0 0
        { platform := "ios", token := "tok", deviceID := "device-1", keyID := "" }).1.isValid
      = true := by
  decide

/-- Claim C5 (amended): for every ios attestation request whose token is missing,
`verifyDCAppAttest` returns an invalid verdict with reason `missing_token` and a nil
error, without consulting the parse or cryptographic verification backend (the
result is the same for every backend), and the key identifier is never examined:
changing it never changes the outcome. -/
theorem c5_missing_token (cfg : AppAttestConfig) (backend : AppAttestBackend) (now : Int)
    (req : AttestationRequest) (_hplat : req.platform = "ios") (htok : req.token = "") :
    verifyDCAppAttest cfg backend now req =
      ({ isValid := false, deviceIntegrity := "", platform := "ios",
         deviceID := req.deviceID, timestamp := now, reason := "missing_token" }, false)
    ∧ ∀ keyID2, verifyDCAppAttest cfg backend now { req with keyID := keyID2 }
        = verifyDCAppAttest cfg backend now req := by
  constructor
  · simp [verifyDCAppAttest, htok]
  · intro k
    rfl

/-- Witness for the amended C5 at a concrete configuration, backend, and request. -/
theorem c5_missing_token_witness :
    verifyDCAppAttest iosCfg0 backend0 0
        { platform := "ios", token := "", deviceID := "device-1", keyID := "k1" } =
      ({ isValid := false, deviceIntegrity := "", platform := "ios",
         deviceID := "device-1", timestamp := 0, reason := "missing_token" }, false) :=
  (c5_missing_token iosCfg0 backend0 0
    { platform := "ios", token := "", deviceID := "device-1", keyID := "k1" } rfl rfl).1

/-- Claim C6 (confirmed): the rollout decision is a pure function of the client id,
version, region, and rollout configuration (environment) — identical inputs give
the identical boolean — and whenever the resolved percentage is 100 the client is
included, for every client id (the hash modulo always lies below 100). -/
theorem c6_rollout_determinism (env : Env) (clientID configVersion region : String) :
    shouldIncludeInRollout env clientID configVersion region
      = shouldIncludeInRollout env clientID configVersion region
    ∧ (getRolloutPercentage env configVersion region = 100 →
        shouldIncludeInRollout env clientID configVersion region = true) := by
  refine ⟨rfl, ?_⟩
  intro h100
  simp only [shouldIncludeInRollout, h100, decide_eq_true_eq]
  exact (goMod_100_bounds _).2

/-- Witness for C6: the spec's own example client under an empty environment
(resolved percentage 100). -/
theorem c6_rollout_determinism_witness :
    getRolloutPercentage [] "1.0" "us-east-1" = 100
    ∧ shouldIncludeInRollout [] "client-1" "1.0" "us-east-1" = true :=
  ⟨by decide, (c6_rollout_determinism [] "client-1" "1.0" "us-east-1").2 (by decide)⟩

/-- Claim C7 (counterexample): the swap-based double loop of
`GetLoadBalancedGateways` is not stable. With loads 0.5, 0.5, 0.25 for the input
order `[gwT1, gwT2, gwLow]`, the minimum-selection swap moves `gwT1` behind the
equal-load `gwT2`: the output order is gw-low, gw-t2, gw-t1, while stable ties
would give gw-low, gw-t1, gw-t2. -/
theorem c7_counterexample :
    (getLoadBalancedGateways [gwT1, gwT2, gwLow] 5).map Gateway.id
      = ["gw-low", "gw-t2", "gw-t1"]
    ∧ calculateGatewayLoad gwT1 = calculateGatewayLoad gwT2
    ∧ (["gw-low", "gw-t2", "gw-t1"] : List String) ≠ ["gw-low", "gw-t1", "gw-t2"] := by
  have hnil : ∀ cur : Gateway, selPassG cur [] = (cur, []) := fun _ => rfl
  have hcons : ∀ (cur x : Gateway) (xs : List Gateway), selPassG cur (x :: xs) =
      if (setLoad cur).load > (setLoad x).load then
        ((selPassG (setLoad x) xs).1, setLoad cur :: (selPassG (setLoad x) xs).2)
      else ((selPassG (setLoad cur) xs).1, setLoad x :: (selPassG (setLoad cur) xs).2) :=
    fun _ _ _ => rfl
  have hT1 : calculateGatewayLoad gwT1 = 1 / 2 := rfl
  have hT2 : calculateGatewayLoad gwT2 = 1 / 2 := rfl
  have hLow : calculateGatewayLoad gwLow < 1 / 2 := by
    show ((1 : Int) : Rat) / ((4 : Int) : Rat) < 1 / 2
    norm_num
  have hc12 : ¬ (setLoad gwT1).load > (setLoad gwT2).load := by
    rw [load_setLoad, load_setLoad, hT1, hT2]
    exact lt_irrefl _
  have hc1L : (setLoad (setLoad gwT1)).load > (setLoad gwLow).load := by
    rw [load_setLoad, load_setLoad, calc_setLoad, hT1]
    exact hLow
  have hc2' : ¬ (setLoad (setLoad gwT2)).load
      > (setLoad (setLoad (setLoad gwT1))).load := by
    rw [load_setLoad, load_setLoad, calc_setLoad, calc_setLoad, calc_setLoad, hT1, hT2]
    exact lt_irrefl _
  have h1 : selPassG (setLoad gwT1) [gwLow]
      = (setLoad gwLow, [setLoad (setLoad gwT1)]) := by
    rw [hcons, if_pos hc1L, hnil]
  have h2 : selPassG gwT1 [gwT2, gwLow]
      = (setLoad gwLow, [setLoad gwT2, setLoad (setLoad gwT1)]) := by
    rw [hcons, if_neg hc12, h1]
  have h3 : selPassG (setLoad gwT2) [setLoad (setLoad gwT1)]
      = (setLoad (setLoad gwT2), [setLoad (setLoad (setLoad gwT1))]) := by
    rw [hcons, if_neg hc2', hnil]
  have hsort : selectionSortG [gwT1, gwT2, gwLow]
      = [setLoad gwLow, setLoad (setLoad gwT2), setLoad (setLoad (setLoad gwT1))] := by
    rw [selectionSortG_cons, h2, selectionSortG_cons, h3, selectionSortG_cons, hnil,
      selectionSortG_nil]
  refine ⟨?_, hT1.trans hT2.symm, by decide⟩
  rw [getLoadBalancedGateways_eq, hsort]
  rfl

/-- Claim C7 (amended): for every gateway list and cap, the selection output is
sorted in ascending order of computed load and truncated to the cap (default 5),
but equal-load gateways do not keep their relative input order — the swap sort is
not stable, as the counterexample shows. -/
theorem c7_sorted_truncated (gateways : List Gateway) (count : Nat) :
    List.Sorted (· ≤ ·)
      ((getLoadBalancedGateways gateways count).map calculateGatewayLoad)
    ∧ (getLoadBalancedGateways gateways count).length = min count gateways.length := by
  rw [getLoadBalancedGateways_eq]
  constructor
  · have hs := selectionSortG_sorted gateways
    have hsub : List.Sublist
        (((selectionSortG gateways).take (min count gateways.length)).map calculateGatewayLoad)
        ((selectionSortG gateways).map calculateGatewayLoad) :=
      (List.take_sublist _ _).map _
    exact List.Pairwise.sublist hsub hs
  · rw [List.length_take]
    have hlen : (selectionSortG gateways).length = gateways.length := by
      have h := (selectionSortG_perm gateways).length_eq
      simpa using h
    rw [hlen]
    omega

/-- Claim C8 (confirmed): load defaulting, in both copies of the computation (geo's
`calculateGatewayLoad` and config's `calculateLoad`): an unknown (nil) or zero
maximum-user capacity gives load exactly 0.5 regardless of the current-user count,
and otherwise the load is current users divided by maximum users. -/
theorem c8_load_defaulting (gw : Gateway) :
    ((gw.maxUsers = none ∨ gw.maxUsers = some 0) →
      calculateGatewayLoad gw = 1 / 2 ∧ calculateLoad gw = 1 / 2)
    ∧ (∀ m : Int, gw.maxUsers = some m → m ≠ 0 →
        calculateGatewayLoad gw = (gw.currentUsers : Rat) / (m : Rat)
        ∧ calculateLoad gw = (gw.currentUsers : Rat) / (m : Rat)) := by
  constructor
  · rintro (h | h) <;> simp [calculateGatewayLoad, calculateLoad, h]
  · intro m hm hmz
    simp [calculateGatewayLoad, calculateLoad, hm, hmz]

/-- Witness for C8: a nil-capacity gateway (arbitrary current users) and `gwA`
(1 of 2 users). -/
theorem c8_load_defaulting_witness :
    calculateGatewayLoad { gwA with maxUsers := none } = 1 / 2
    ∧ calculateLoad { gwA with maxUsers := none } = 1 / 2
    ∧ calculateGatewayLoad gwA = (gwA.currentUsers : Rat) / ((2 : Int) : Rat)
    ∧ calculateLoad gwA = (gwA.currentUsers : Rat) / ((2 : Int) : Rat) := by
  have h1 := (c8_load_defaulting { gwA with maxUsers := none }).1 (Or.inl rfl)
  have h2 := (c8_load_defaulting gwA).2 2 rfl (by norm_num)
  exact ⟨h1.1, h1.2, h2.1, h2.2⟩

/-- Claim C9 (confirmed): rollout percentage resolution follows the precedence
chain version+region, version-only, region-only, global key, with 100 when nothing
is configured; every resolved value is clamped into [0, 100]; and the concrete
inputs -5 and 150 resolve to 0 and 100. -/
theorem c9_rollout_percentage_resolution (env : Env) (version region : String) :
    (0 ≤ getRolloutPercentage env version region ∧
      getRolloutPercentage env version region ≤ 100)
    ∧ (normalizeRolloutKey version ≠ "" → normalizeRolloutKey region ≠ "" →
        ((∀ p, envResolve env (keyVR version region) = some p →
            getRolloutPercentage env version region = clampPercentage p)
        ∧ (envResolve env (keyVR version region) = none →
            ∀ p, envResolve env (keyV version) = some p →
              getRolloutPercentage env version region = clampPercentage p)
        ∧ (envResolve env (keyVR version region) = none →
            envResolve env (keyV version) = none →
            ∀ p, envResolve env (keyR region) = some p →
              getRolloutPercentage env version region = clampPercentage p)
        ∧ (envResolve env (keyVR version region) = none →
            envResolve env (keyV version) = none →
            envResolve env (keyR region) = none →
            ∀ p, envResolve env keyGlobal = some p →
              getRolloutPercentage env version region = clampPercentage p)
        ∧ (envResolve env (keyVR version region) = none →
            envResolve env (keyV version) = none →
            envResolve env (keyR region) = none →
            envResolve env keyGlobal = none →
            getRolloutPercentage env version region = 100)))
    ∧ getRolloutPercentage [(keyGlobal, "-5")] "1.0" "us-east-1" = 0
    ∧ getRolloutPercentage [(keyGlobal, "150")] "1.0" "us-east-1" = 100 := by
  refine ⟨getRolloutPercentage_bounds env version region, ?_, by decide, by decide⟩
  intro hv hr
  have hkeys := rolloutEnvKeys_eq version region hv hr
  refine ⟨?_, ?_, ?_, ?_, ?_⟩
  · intro p h1
    simp [getRolloutPercentage, hkeys, List.findSome?_cons, h1]
  · intro h1 p h2
    simp [getRolloutPercentage, hkeys, List.findSome?_cons, h1, h2]
  · intro h1 h2 p h3
    simp [getRolloutPercentage, hkeys, List.findSome?_cons, h1, h2, h3]
  · intro h1 h2 h3 p h4
    simp [getRolloutPercentage, hkeys, List.findSome?_cons, h1, h2, h3, h4]
  · intro h1 h2 h3 h4
    simp [getRolloutPercentage, hkeys, List.findSome?_cons, h1, h2, h3, h4]

/-- Witness for C9: a version+region override of 42 wins the chain. -/
theorem c9_rollout_percentage_resolution_witness :
    getRolloutPercentage [("LUMENLINK_ROLLOUT_PERCENTAGE_1_0_US_EAST_1", "42")]
      "1.0" "us-east-1" = 42 := by
  have h := ((c9_rollout_percentage_resolution
    [("LUMENLINK_ROLLOUT_PERCENTAGE_1_0_US_EAST_1", "42")] "1.0" "us-east-1").2.1
    (by decide) (by decide)).1 42 (by decide)
  rw [h]
  decide

/-- Claim C10 (counterexample): `hashString` is not always in `[0, 100)`. On the
13-rune string whose accumulated hash is exactly `minInt64` after wrapping, Go's
`hash = -hash` overflows back to `minInt64` and the truncated `% 100` returns -8. -/
theorem c10_counterexample :
    hashString minIntString = -8 ∧ ¬ 0 ≤ hashString minIntString := by
  decide

/-- Claim C10 (amended): for every string, `hashString` lies strictly between -100
and 100, and it is nonnegative (hence in `[0, 100)`) whenever the accumulated
wrapped hash is not exactly `minInt64`; at `minInt64` the negation overflows and
the result is negative. -/
theorem c10_hashString_range (s : String) :
    -100 < hashString s ∧ hashString s < 100 ∧
    (hashFold s ≠ -(2 ^ 63) → 0 ≤ hashString s) :=
  hashString_bounds s

/-- Witness for the amended C10 at a concrete client string. -/
theorem c10_hashString_range_witness :
    0 ≤ hashString "client-1" ∧ hashString "client-1" < 100 :=
  ⟨(c10_hashString_range "client-1").2.2 (by decide),
   (c10_hashString_range "client-1").2.1⟩

end LumenLink
